import Mathlib

/-!
# DART: rotation-vector `SO3` and `SupportPolygonVisual`

A shallow embedding of `dart/math/SO3RotationVector.hpp` (the class
`SO3<S_, RotationVectorRep>` at its one explicit instantiation `S_ = double`)
and of the display toggles and the method `refresh()` of
`osgDart/SupportPolygonVisual.cpp`.

Scalars are IEEE 754 binary64 data.  Only the operations that decide what the
embedded code stores or whether it returns are embedded: comparison `==`,
unary minus, the product with `static_cast<S>(-1)`, the sum and the constant
zero.
-/

namespace dart
namespace math

/-! ## The scalar type `double` -/

/-- An IEEE 754 binary64 datum: a NaN, a signed infinity, or a finite number
given by its sign bit, its biased exponent field (`0 .. 2046`) and its 52-bit
fraction field.  All NaNs are one value here: IEEE 754 leaves the sign and
payload of a NaN that an arithmetic operation returns unspecified, and no
operation embedded below can tell two NaNs apart. -/
inductive F64 where
  | nan
  | inf (sign : Bool)
  | fin (sign : Bool) (expo : Fin 2047) (mant : Fin 4503599627370496)
  deriving DecidableEq

namespace F64

/-- The integer significand of a finite datum: the fraction field, with the
hidden leading bit `2^52` added when the exponent field is not zero. -/
def significand (expo : Fin 2047) (mant : Fin 4503599627370496) : Nat :=
  if expo.val = 0 then mant.val else 4503599627370496 + mant.val

/-- The power of two that weighs the last bit of the significand; subnormal
numbers (exponent field `0`) share the weight of exponent field `1`. -/
def exponent (expo : Fin 2047) : Int :=
  (Nat.max expo.val 1 : Int) - 1075

/-- The rational number a finite datum denotes; `none` for NaN and infinities. -/
def toRat? : F64 → Option ℚ
  | nan => none
  | inf _ => none
  | fin s e m => some ((if s then -1 else 1) * (significand e m : ℚ) * (2 : ℚ) ^ exponent e)

/-- Whether the datum is a NaN. -/
def isNaN : F64 → Bool
  | nan => true
  | _ => false

/-- The literal `0.0` (positive zero). -/
def zero : F64 := fin false 0 0

/-- The value `-0.0` (negative zero). -/
def negZero : F64 := fin true 0 0

/-- The value `static_cast<double>(-1)`, that is `-1.0 = 0xBFF0000000000000`. -/
def negOne : F64 := fin true 1023 0

/-- The double nearest to `2*pi`, `0x401921FB54442D18 = 6.283185307179586`. -/
def twoPi : F64 := fin false 1025 2570638124657944

/-- A finite datum from natural-number fields, reduced into the field widths. -/
def mkFin (s : Bool) (e m : Nat) : F64 :=
  fin s ⟨e % 2047, Nat.mod_lt _ (by decide)⟩
    ⟨m % 4503599627370496, Nat.mod_lt _ (by decide)⟩

/-- Drop the low `k` bits of `M`, rounding to nearest, ties to even. -/
def rne (M k : Nat) : Nat :=
  let t := M / 2 ^ k
  let r := M % 2 ^ k
  if 2 * r > 2 ^ k ∨ (2 * r = 2 ^ k ∧ t % 2 = 1) then t + 1 else t

/-- Round the exact value `(-1)^s * M * 2^E` to binary64, in the default
rounding mode (round to nearest, ties to even). -/
def round (s : Bool) (M : Nat) (E : Int) : F64 :=
  if M = 0 then fin s 0 0
  else
    let q : Int := max (E + (Nat.log2 M : Int) - 52) (-1074)
    let sig : Nat := if q ≤ E then M * 2 ^ (E - q).toNat else rne M (q - E).toNat
    let sig' : Nat := if sig = 9007199254740992 then 4503599627370496 else sig
    let q' : Int := if sig = 9007199254740992 then q + 1 else q
    if sig' < 4503599627370496 then mkFin s 0 sig'
    else if 2047 ≤ q' + 1075 then inf s
    else mkFin s (q' + 1075).toNat (sig' - 4503599627370496)

/-- The operator `*` of `double`: the IEEE 754 product. -/
def mul : F64 → F64 → F64
  | nan, _ => nan
  | _, nan => nan
  | inf s, inf t => inf (xor s t)
  | inf s, fin t e m => if significand e m = 0 then nan else inf (xor s t)
  | fin s e m, inf t => if significand e m = 0 then nan else inf (xor s t)
  | fin s e m, fin t e' m' =>
      round (xor s t) (significand e m * significand e' m') (exponent e + exponent e')

/-- The unary operator `-` of `double`: the sign is flipped, nothing is rounded. -/
def neg : F64 → F64
  | nan => nan
  | inf s => inf (!s)
  | fin s e m => fin (!s) e m

/-- The operator `+` of `double`: the IEEE 754 sum, rounded to nearest, ties
to even.  An exact sum of zero is `+0.0`, except that `-0.0 + -0.0` is `-0.0`. -/
def add : F64 → F64 → F64
  | nan, _ => nan
  | _, nan => nan
  | inf s, inf t => if s = t then inf s else nan
  | inf s, fin _ _ _ => inf s
  | fin _ _ _, inf t => inf t
  | fin s e m, fin t e' m' =>
      let E : Int := min (exponent e) (exponent e')
      let a : Int := (if s then -1 else 1) * (significand e m * 2 ^ (exponent e - E).toNat : Nat)
      let b : Int := (if t then -1 else 1) * (significand e' m' * 2 ^ (exponent e' - E).toNat : Nat)
      if a + b = 0 then fin (s && t) 0 0
      else round (decide (a + b < 0)) (a + b).natAbs E

/-- The conversion of an unsigned integer to `double`. -/
def ofNat (n : Nat) : F64 :=
  round false n 0

/-- The operator `==` of `double`: false when either side is a NaN, true for
two zeros of any signs, and otherwise true exactly for the same datum. -/
def eq : F64 → F64 → Bool
  | nan, _ => false
  | _, nan => false
  | inf s, inf t => s == t
  | inf _, fin _ _ _ => false
  | fin _ _ _, inf _ => false
  | fin s e m, fin t e' m' =>
      (significand e m == 0 && significand e' m' == 0) || (s == t && e == e' && m == m')

end F64

/-! ## Eigen vectors and matrices -/

/-- The storage type `RepDataType = Eigen::Matrix<S, 3, 1>`. -/
structure Vec3 where
  x : F64
  y : F64
  z : F64
  deriving DecidableEq

namespace Vec3

/-- The constant `RepDataType::Zero()`. -/
def Zero : Vec3 := ⟨F64.zero, F64.zero, F64.zero⟩

/-- The method `setZero()` of Eigen: every coefficient becomes `0.0`. -/
def setZero (_v : Vec3) : Vec3 := Zero

/-- The operator `==` of Eigen: all coefficients compare equal with `==`. -/
def eq (a b : Vec3) : Bool :=
  F64.eq a.x b.x && F64.eq a.y b.y && F64.eq a.z b.z

/-- The operator `*=` of Eigen with a scalar: every coefficient is multiplied. -/
def mulScalar (v : Vec3) (s : F64) : Vec3 :=
  ⟨F64.mul v.x s, F64.mul v.y s, F64.mul v.z s⟩

/-- The unary operator `-` of Eigen: every coefficient is negated. -/
def neg (v : Vec3) : Vec3 :=
  ⟨F64.neg v.x, F64.neg v.y, F64.neg v.z⟩

end Vec3

/-- The type `Eigen::Vector2d`, a point of the support plane. -/
structure Vec2 where
  x : F64
  y : F64
  deriving DecidableEq

/-- An argument of type `Eigen::MatrixBase<Derived>`: a dense matrix of any
shape, with its coefficients in storage order. -/
structure RawMatrix where
  rows : Nat
  cols : Nat
  coeffs : List F64
  size_eq : coeffs.length = rows * cols

/-- A `3x1` vector seen as a matrix argument. -/
def Vec3.toRaw (v : Vec3) : RawMatrix :=
  ⟨3, 1, [v.x, v.y, v.z], rfl⟩

/-- The ways a call aborts: a size check inside Eigen, or one of the two
`assert`s of the class on the shape of its argument. -/
inductive Abort where
  | eigenSize
  | assertRows
  | assertCols
  deriving DecidableEq

/-- The `assert(cond)` statement: the call goes on when `cond` holds and
aborts otherwise. -/
def assert (cond : Bool) (e : Abort) : Except Abort Unit :=
  if cond then .ok () else .error e

/-- Eigen copying a dense expression into a fixed-size `Matrix<S, 3, 1>` (the
member initialiser `mRepData(matrix)` and the assignment `mRepData = vector`):
the three coefficients are copied; an argument that does not hold exactly
three coefficients fails the size check of Eigen. -/
def Vec3.ofRaw (matrix : RawMatrix) : Except Abort Vec3 :=
  match matrix.coeffs with
  | [a, b, c] => .ok ⟨a, b, c⟩
  | _ => .error .eigenSize

/-! ## The class `SO3<S_, RotationVectorRep>` -/

/-- A rotation in rotation-vector form; `mRepData` is its only data member. -/
structure SO3 where
  mRepData : Vec3
  deriving DecidableEq

namespace SO3

/-- The constructor `SO3(const Eigen::MatrixBase<Derived>& matrix)`. -/
def ofMatrix (matrix : RawMatrix) : Except Abort SO3 := do
  let data ← Vec3.ofRaw matrix
  assert (matrix.rows == 3) .assertRows
  assert (matrix.cols == 1) .assertCols
  pure ⟨data⟩

/-- The constructor `SO3(Eigen::MatrixBase<Derived>&& matrix)`; moving the
argument copies its coefficients. -/
def ofMatrixMove (matrix : RawMatrix) : Except Abort SO3 := do
  let data ← Vec3.ofRaw matrix
  assert (matrix.rows == 3) .assertRows
  assert (matrix.cols == 1) .assertCols
  pure ⟨data⟩

/-- The operator `==`. -/
def opEq (self other : SO3) : Bool :=
  Vec3.eq self.mRepData other.mRepData

/-- The method `fromRotationVector(const Eigen::MatrixBase<MatrixDerived>&)`;
the result is the receiver after the call. -/
def fromRotationVector (_self : SO3) (vector : RawMatrix) : Except Abort SO3 := do
  assert (vector.rows == 3) .assertRows
  assert (vector.cols == 1) .assertCols
  let data ← Vec3.ofRaw vector
  pure ⟨data⟩

/-- The method `fromRotationVector(Eigen::MatrixBase<MatrixDerived>&&)`; the
result is the receiver after the call. -/
def fromRotationVectorMove (_self : SO3) (vector : RawMatrix) : Except Abort SO3 := do
  assert (vector.rows == 3) .assertRows
  assert (vector.cols == 1) .assertCols
  let data ← Vec3.ofRaw vector
  pure ⟨data⟩

/-- The method `toRotationVector()`. -/
def toRotationVector (self : SO3) : Vec3 :=
  self.mRepData

/-- The method `setRotationVector(axisAngle)`; the result is the receiver
after the call. -/
def setRotationVector (_self : SO3) (axisAngle : Vec3) : SO3 :=
  ⟨axisAngle⟩

/-- The method `getRotationVector()`. -/
def getRotationVector (self : SO3) : Vec3 :=
  self.mRepData

/-- The method `setIdentity()`; the result is the receiver after the call. -/
def setIdentity (self : SO3) : SO3 :=
  ⟨self.mRepData.setZero⟩

/-- The method `isIdentity()`. -/
def isIdentity (self : SO3) : Bool :=
  Vec3.eq self.mRepData Vec3.Zero

/-- The method `invert()`; the result is the receiver after the call. -/
def invert (self : SO3) : SO3 :=
  ⟨self.mRepData.mulScalar F64.negOne⟩

/-- The method `getInverse()`: the value it returns, paired with the receiver
after the call.  The unary minus of Eigen returns a `const` expression, so
`SO3(-mRepData)` goes through the constructor from
`const Eigen::MatrixBase<Derived>&`. -/
def getInverse (self : SO3) : Except Abort (SO3 × SO3) := do
  let inverse ← ofMatrix self.mRepData.neg.toRaw
  pure (inverse, self)

/-- The expression `r.getInverse().getInverse()`: the value it yields. -/
def getInverseTwice (self : SO3) : Except Abort SO3 := do
  let (inverse, _) ← self.getInverse
  let (twice, _) ← inverse.getInverse
  pure twice

end SO3

end math
end dart

/-! ## The skeleton that `SupportPolygonVisual` reads -/

namespace dart
namespace dynamics

/-- The constant `dart::dynamics::INVALID_INDEX`, which is
`static_cast<size_t>(-1)` on a 64-bit target. -/
def INVALID_INDEX : Nat := 18446744073709551615

/-- Modelled from the spec: the class `dart::dynamics::BodyNode` is not among
the embedded files; of a body node, `refresh()` reads its mass and its centre
of mass. -/
structure BodyNode where
  getMass : dart.math.F64
  getCOM : dart.math.Vec3

/-- Modelled from the spec: the class `dart::dynamics::Skeleton` is not among
the embedded files; it is the read-only source of "a sequence of 2-D
support-polygon vertices" and "a pair of orthogonal world-space axis vectors
spanning the support plane", for the whole skeleton and for each of its
trees, and of the body nodes of each tree. -/
structure Skeleton where
  getSupportPolygon : List dart.math.Vec2
  getSupportPolygonOfTree : Nat → List dart.math.Vec2
  getSupportAxes : dart.math.Vec3 × dart.math.Vec3
  getSupportAxesOfTree : Nat → dart.math.Vec3 × dart.math.Vec3
  getTreeBodyNodes : Nat → List BodyNode

end dynamics
end dart

/-! ## `osgDart::SupportPolygonVisual`: the display toggles and `refresh()` -/

namespace osgDart

open dart.math dart.dynamics

/-- A `float`, an IEEE 754 binary32 datum, by its fields. -/
inductive F32 where
  | nan
  | inf (sign : Bool)
  | fin (sign : Bool) (expo : Fin 255) (mant : Fin 8388608)
  deriving DecidableEq

/-- The type `osg::Vec3`, three `float` coordinates. -/
structure OsgVec3 where
  x : F32
  y : F32
  z : F32
  deriving DecidableEq

/-- The default constructor `osg::Vec3()`: three zeros. -/
def OsgVec3.zero : OsgVec3 :=
  ⟨.fin false 0 0, .fin false 0 0, .fin false 0 0⟩

/-- The method `resize(n)` of a `std::vector`, which `osg::Vec3Array` and
`osg::DrawElementsUShort` inherit: the first `n` elements are kept, and new
elements are value-initialised. -/
def resize {α : Type} (xs : List α) (n : Nat) (fill : α) : List α :=
  xs.take n ++ List.replicate (n - xs.length) fill

/-- The way `refresh()` aborts: the `assert` on the mass of a tree. -/
inductive Abort where
  | assertMass
  deriving DecidableEq

/-- The scene-graph nodes that `initialize()` creates, each by its own `new`. -/
inductive Node where
  | mGeode
  | mCentroidNode
  | mComNode
  deriving DecidableEq

/-- The members of `SupportPolygonVisual` that the display toggles and the
arrays of `refresh()` read or write: the child list of its base class
`osg::Group`, the two flags, the weak pointer to the skeleton (`none` when it
is null or has expired), the tree index, the elevation, and the contents of
the vertex array `mVertices` and of the index array `mFaces`, whose elements
are 16-bit unsigned (`osg::DrawElementsUShort`). -/
structure SupportPolygonVisual where
  children : List Node
  mDisplayCentroid : Bool
  mDisplayCOM : Bool
  mSkeleton : Option Skeleton
  mTreeIndex : Nat
  mElevation : F64
  mVertices : List OsgVec3
  mFaces : List Nat

namespace SupportPolygonVisual

/-- The method `osg::Group::addChild`: the node is appended to the child list
(also when it is a child already). -/
def addChild (self : SupportPolygonVisual) (child : Node) : SupportPolygonVisual :=
  { self with children := self.children ++ [child] }

/-- The method `osg::Group::removeChild`: the first occurrence of the node in
the child list is removed, if there is one. -/
def removeChild (self : SupportPolygonVisual) (child : Node) : SupportPolygonVisual :=
  { self with children := self.children.erase child }

/-- The object when the body of a constructor starts: the skeleton, the tree
index and the elevation are set from the arguments, there are no children
and no arrays yet, and the two flags hold whatever was in memory. -/
def fresh (skeleton : Option Skeleton) (treeIndex : Nat) (elevation : F64)
    (displayCentroid displayCOM : Bool) : SupportPolygonVisual :=
  { children := [], mDisplayCentroid := displayCentroid, mDisplayCOM := displayCOM,
    mSkeleton := skeleton, mTreeIndex := treeIndex, mElevation := elevation,
    mVertices := [], mFaces := [] }

/-- The method `initialize()`, restricted to the members above. -/
def init (self : SupportPolygonVisual) : SupportPolygonVisual :=
  let self := self.addChild .mGeode
  let self := { self with mVertices := [] }
  let self := { self with mFaces := [] }
  let self := { self with mDisplayCentroid := true }
  let self := self.addChild .mCentroidNode
  let self := { self with mDisplayCOM := true }
  self.addChild .mComNode

/-- The method `displayCentroid(bool)`. -/
def displayCentroid (self : SupportPolygonVisual) (display : Bool) : SupportPolygonVisual :=
  if self.mDisplayCentroid == display then self
  else
    let self := { self with mDisplayCentroid := display }
    if self.mDisplayCentroid then self.addChild .mCentroidNode
    else self.removeChild .mCentroidNode

/-- The method `isCentroidDisplayed()`. -/
def isCentroidDisplayed (self : SupportPolygonVisual) : Bool :=
  self.mDisplayCentroid

/-- The method `displayCenterOfMass(bool)`. -/
def displayCenterOfMass (self : SupportPolygonVisual) (display : Bool) : SupportPolygonVisual :=
  if self.mDisplayCOM == display then self
  else
    let self := { self with mDisplayCOM := display }
    if self.mDisplayCOM then self.addChild .mComNode
    else self.removeChild .mComNode

/-- The method `isCenterOfMassDisplayed()`. -/
def isCenterOfMassDisplayed (self : SupportPolygonVisual) : Bool :=
  self.mDisplayCOM

/-- The loop `for(size_t i=0; i < poly.size(); ++i)` of `refresh()` from the
index `i` on, `rest` being the points `poly[i]`, `poly[i+1]`, ...: the vertex
of the point is stored at `i` in the vertex array, and `i`, converted to
`GLushort`, at `i` in the index array. -/
def refreshLoop (vertexOf : Vec2 → OsgVec3) :
    Nat → List Vec2 → List OsgVec3 → List Nat → List OsgVec3 × List Nat
  | _, [], vertices, faces => (vertices, faces)
  | i, p :: rest, vertices, faces =>
      refreshLoop vertexOf (i + 1) rest (vertices.set i (vertexOf p)) (faces.set i (i % 65536))

/-- The support polygon that `refresh()` reads from the skeleton. -/
def polygonOf (self : SupportPolygonVisual) (skel : Skeleton) : List Vec2 :=
  if INVALID_INDEX = self.mTreeIndex then skel.getSupportPolygon
  else skel.getSupportPolygonOfTree self.mTreeIndex

/-- The support axes that `refresh()` reads from the skeleton. -/
def axesOf (self : SupportPolygonVisual) (skel : Skeleton) : Vec3 × Vec3 :=
  if INVALID_INDEX = self.mTreeIndex then skel.getSupportAxes
  else skel.getSupportAxesOfTree self.mTreeIndex

/-- The sum `mass` of the loop over the body nodes of the tree. -/
def treeMass (bns : List BodyNode) : F64 :=
  bns.foldl (fun mass bn => F64.add mass bn.getMass) F64.zero

/-- The method `refresh()`, restricted to the members above.  The arithmetic
that places a point of the polygon (`axes.first*p[0] + axes.second*p[1] +
up*mElevation` in `double`, then narrowed to the `float`s of `osg::Vec3`) is
the argument `place`.  The calls on `mGeom` after the loop hand the same
arrays to the geometry again, and the two blocks after them write the frames
`mCentroid` and `mCom` only; of them, the `assert(mass != 0.0)` is kept. -/
def refresh (place : Vec3 × Vec3 → F64 → Vec2 → OsgVec3) (self : SupportPolygonVisual) :
    Except Abort SupportPolygonVisual :=
  match self.mSkeleton with
  | none => .ok self
  | some skel =>
    let poly := self.polygonOf skel
    let axes := self.axesOf skel
    let self := { self with mVertices := resize self.mVertices poly.length OsgVec3.zero }
    let self := { self with mFaces := resize self.mFaces poly.length 0 }
    let arrays := refreshLoop (place axes self.mElevation) 0 poly self.mVertices self.mFaces
    let self := { self with mVertices := arrays.1, mFaces := arrays.2 }
    if self.mDisplayCOM then
      if INVALID_INDEX = self.mTreeIndex then .ok self
      else if F64.eq (treeMass (skel.getTreeBodyNodes self.mTreeIndex)) F64.zero then
        .error .assertMass
      else .ok self
    else .ok self

/-- Whether no `assert` of `refresh()` fails: the centre of mass is not
displayed, or the whole skeleton is visualised, or the `mass` of the tree
passes `mass != 0.0`. -/
def assertHolds (self : SupportPolygonVisual) (skel : Skeleton) : Bool :=
  !self.mDisplayCOM || decide (INVALID_INDEX = self.mTreeIndex) ||
    !F64.eq (treeMass (skel.getTreeBodyNodes self.mTreeIndex)) F64.zero

/-- The points `(k, k*k)` for `k < n`: a convex polygon with `n` corners, in
counter-clockwise order. -/
def parabola (n : Nat) : List Vec2 :=
  (List.range n).map (fun k => ⟨F64.ofNat k, F64.ofNat (k * k)⟩)

/-- A skeleton of no trees that stands on the plane of the first two
coordinate axes, with the given support polygon. -/
def flatSkeleton (poly : List Vec2) : Skeleton :=
  { getSupportPolygon := poly
    getSupportPolygonOfTree := fun _ => []
    getSupportAxes := (⟨F64.ofNat 1, F64.zero, F64.zero⟩, ⟨F64.zero, F64.ofNat 1, F64.zero⟩)
    getSupportAxesOfTree :=
      fun _ => (⟨F64.ofNat 1, F64.zero, F64.zero⟩, ⟨F64.zero, F64.ofNat 1, F64.zero⟩)
    getTreeBodyNodes := fun _ => [] }

/-- The object that `SupportPolygonVisual(skeleton, elevation)` constructs at
elevation `0.0` for the skeleton with the support polygon `parabola n`. -/
def onParabola (n : Nat) : SupportPolygonVisual :=
  init (fresh (some (flatSkeleton (parabola n))) INVALID_INDEX F64.zero false false)

/-- The centroid node and the centre-of-mass node are each a child once when
their flag is set and not a child when it is cleared. -/
def Attached (self : SupportPolygonVisual) : Prop :=
  self.children.count .mCentroidNode = (if self.mDisplayCentroid then 1 else 0) ∧
    self.children.count .mComNode = (if self.mDisplayCOM then 1 else 0)

end SupportPolygonVisual

/-- One call of a display toggle, with its argument. -/
inductive Call where
  | displayCentroid (display : Bool)
  | displayCenterOfMass (display : Bool)
  deriving DecidableEq

namespace Call

/-- Perform one call on the object. -/
def step (self : SupportPolygonVisual) : Call → SupportPolygonVisual
  | displayCentroid d => self.displayCentroid d
  | displayCenterOfMass d => self.displayCenterOfMass d

/-- Perform a sequence of calls, first to last. -/
def run (self : SupportPolygonVisual) (calls : List Call) : SupportPolygonVisual :=
  calls.foldl step self

/-- The argument of the latest `displayCentroid` call of a sequence, or
`init` when the sequence has none. -/
def latestCentroid (init : Bool) : List Call → Bool
  | [] => init
  | displayCentroid d :: rest => latestCentroid d rest
  | displayCenterOfMass _ :: rest => latestCentroid init rest

/-- The argument of the latest `displayCenterOfMass` call of a sequence, or
`init` when the sequence has none. -/
def latestCenterOfMass (init : Bool) : List Call → Bool
  | [] => init
  | displayCentroid _ :: rest => latestCenterOfMass init rest
  | displayCenterOfMass d :: rest => latestCenterOfMass d rest

end Call

end osgDart

namespace dart
namespace math

/-! ## Facts about the scalar operations -/

namespace F64

theorem log2_mul_two_pow (a k : Nat) (ha : a ≠ 0) :
    Nat.log2 (a * 2 ^ k) = Nat.log2 a + k := by
  have hne : a * 2 ^ k ≠ 0 := Nat.mul_ne_zero ha (by positivity)
  apply Nat.le_antisymm
  · have h1 : a < 2 ^ (Nat.log2 a + 1) := Nat.lt_log2_self
    have h2 : a * 2 ^ k < 2 ^ (Nat.log2 a + k + 1) := by
      have : 2 ^ (Nat.log2 a + k + 1) = 2 ^ (Nat.log2 a + 1) * 2 ^ k := by ring
      rw [this]
      exact Nat.mul_lt_mul_of_pos_right h1 (by positivity)
    exact Nat.lt_succ_iff.mp ((Nat.log2_lt hne).2 h2)
  · rw [Nat.le_log2 hne, pow_add]
    exact Nat.mul_le_mul_right _ (Nat.log2_self_le ha)

theorem rne_mul_two_pow (a k : Nat) : rne (a * 2 ^ k) k = a := by
  have hp : 0 < 2 ^ k := by positivity
  simp [rne, Nat.mul_div_cancel _ hp, Nat.mul_mod_left]
  intro h
  omega

theorem significand_lt (e : Fin 2047) (m : Fin 4503599627370496) :
    significand e m < 9007199254740992 := by
  unfold significand
  have := m.isLt
  split <;> omega

theorem round_exact (s : Bool) (e : Fin 2047) (m : Fin 4503599627370496) :
    round s (significand e m * 2 ^ 52) (exponent e - 52) = fin s e m := by
  by_cases h0 : significand e m = 0
  · have he : e.val = 0 := by
      unfold significand at h0
      by_contra hne
      rw [if_neg hne] at h0
      omega
    have hm : m.val = 0 := by
      unfold significand at h0
      rw [if_pos he] at h0
      exact h0
    have he' : e = 0 := Fin.ext he
    have hm' : m = 0 := Fin.ext hm
    subst he' hm'
    simp [round, significand]
  · have hlog : Nat.log2 (significand e m * 2 ^ 52) = Nat.log2 (significand e m) + 52 :=
      log2_mul_two_pow _ _ h0
    have hlt := significand_lt e m
    have hq : max (exponent e - 52 + ((Nat.log2 (significand e m * 2 ^ 52) : Nat) : Int) - 52)
        (-1074) = exponent e := by
      rw [hlog]
      by_cases he : e.val = 0
      · have hs : significand e m < 2 ^ 52 := by
          unfold significand; rw [if_pos he]; exact m.isLt
        have hl : Nat.log2 (significand e m) < 52 := (Nat.log2_lt h0).2 hs
        have hx : exponent e = -1074 := by unfold exponent; simp [he]
        rw [hx]; push_cast; omega
      · have hs : 2 ^ 52 ≤ significand e m := by
          unfold significand; rw [if_neg he]; norm_num
        have hl : 52 ≤ Nat.log2 (significand e m) := (Nat.le_log2 h0).2 hs
        have hl' : Nat.log2 (significand e m) < 53 := (Nat.log2_lt h0).2 (by norm_num; exact hlt)
        have hx : exponent e = (e.val : Int) - 1075 := by
          unfold exponent
          have : Nat.max e.val 1 = e.val := Nat.max_eq_left (by omega)
          rw [this]
        have hel := e.isLt
        rw [hx]; push_cast; omega
    have hM : significand e m * 2 ^ 52 ≠ 0 := Nat.mul_ne_zero h0 (by norm_num)
    have hk : (exponent e - (exponent e - 52)).toNat = 52 := by
      have : exponent e - (exponent e - 52) = 52 := by ring
      rw [this]; rfl
    have hle : ¬ (exponent e ≤ exponent e - 52) := by omega
    unfold round
    rw [if_neg hM]
    simp only [hq, if_neg hle, hk, rne_mul_two_pow]
    have hne : significand e m ≠ 9007199254740992 := by omega
    simp only [if_neg hne]
    by_cases he : e.val = 0
    · have hs : significand e m = m.val := by unfold significand; rw [if_pos he]
      have he' : e = 0 := Fin.ext he
      subst he'
      rw [hs, if_pos m.isLt]
      simp [mkFin, Nat.mod_eq_of_lt m.isLt]
    · have hs : significand e m = 4503599627370496 + m.val := by
        unfold significand; rw [if_neg he]
      have hx : exponent e = (e.val : Int) - 1075 := by
        unfold exponent
        have : Nat.max e.val 1 = e.val := Nat.max_eq_left (by omega)
        rw [this]
      have hel := e.isLt
      have h1 : ¬ (significand e m < 4503599627370496) := by omega
      have h2 : ¬ ((2047 : Int) ≤ exponent e + 1075) := by omega
      have h3 : (exponent e + 1075).toNat = e.val := by omega
      rw [if_neg h1, if_neg h2, h3, hs]
      simp [mkFin, Nat.mod_eq_of_lt m.isLt, Nat.mod_eq_of_lt hel]

theorem mul_negOne (x : F64) : mul x negOne = neg x := by
  cases x with
  | nan => rfl
  | inf s => cases s <;> rfl
  | fin s e m =>
    have hs : significand 1023 0 = 2 ^ 52 := by decide
    have hx : exponent 1023 = -52 := by decide
    show round (xor s true) (significand e m * significand 1023 0) (exponent e + exponent 1023) = _
    rw [hs, hx]
    have := round_exact (xor s true) e m
    rw [show exponent e + -52 = exponent e - 52 by ring, this]
    cases s <;> rfl

theorem neg_neg (x : F64) : neg (neg x) = x := by
  cases x <;> simp [neg]

theorem toRat?_neg (x : F64) : toRat? (neg x) = (toRat? x).map (fun q => -q) := by
  cases x with
  | nan => rfl
  | inf s => rfl
  | fin s e m => cases s <;> simp [neg, toRat?]

theorem significand_eq_zero (e : Fin 2047) (m : Fin 4503599627370496) :
    significand e m = 0 ↔ e = 0 ∧ m = 0 := by
  unfold significand
  constructor
  · intro h
    by_cases he : e.val = 0
    · rw [if_pos he] at h
      exact ⟨Fin.ext he, Fin.ext h⟩
    · rw [if_neg he] at h; omega
  · rintro ⟨rfl, rfl⟩; rfl

theorem toRat?_eq_zero (x : F64) : toRat? x = some 0 ↔ x = zero ∨ x = negZero := by
  cases x with
  | nan => simp [toRat?, zero, negZero]
  | inf s => simp [toRat?, zero, negZero]
  | fin s e m =>
    have h2 : ((2 : ℚ) ^ exponent e) ≠ 0 := zpow_ne_zero _ (by norm_num)
    have hs : ((if s then -1 else 1 : ℚ)) ≠ 0 := by cases s <;> norm_num
    simp only [toRat?, Option.some.injEq, mul_eq_zero, hs, h2, or_false, false_or,
      Nat.cast_eq_zero, significand_eq_zero, zero, negZero, fin.injEq]
    cases s <;> simp

theorem eq_zero_iff (x : F64) : eq x zero = true ↔ toRat? x = some 0 := by
  rw [toRat?_eq_zero]
  cases x with
  | nan => simp [eq, zero, negZero]
  | inf s => simp [eq, zero, negZero]
  | fin s e m =>
    have hz : significand 0 0 = 0 := rfl
    simp only [eq, zero, negZero, hz, beq_self_eq_true, Bool.and_true, Bool.or_eq_true,
      beq_iff_eq, Bool.and_eq_true, significand_eq_zero, fin.injEq]
    cases s <;> simp

theorem eq_iff (x y : F64) :
    eq x y = true ↔
      x.isNaN = false ∧ y.isNaN = false ∧
        (x = y ∨ (x.toRat? = some 0 ∧ y.toRat? = some 0)) := by
  cases x with
  | nan => simp [eq, isNaN]
  | inf s =>
    cases y with
    | nan => simp [eq, isNaN]
    | inf t => simp [eq, isNaN, toRat?]
    | fin t e m => simp [eq, isNaN, toRat?]
  | fin s e m =>
    cases y with
    | nan => simp [eq, isNaN]
    | inf t => simp [eq, isNaN, toRat?]
    | fin t e' m' =>
      have hx := toRat?_eq_zero (fin s e m)
      have hy := toRat?_eq_zero (fin t e' m')
      simp only [zero, negZero, fin.injEq] at hx hy
      rw [hx, hy]
      simp only [eq, isNaN, Bool.or_eq_true, Bool.and_eq_true, beq_iff_eq,
        significand_eq_zero, fin.injEq, true_and]
      constructor
      · rintro (⟨⟨he, hm⟩, he', hm'⟩ | ⟨⟨hs, he⟩, hm⟩)
        · right
          exact ⟨by cases s <;> simp [he, hm], by cases t <;> simp [he', hm']⟩
        · left; exact ⟨hs, he, hm⟩
      · rintro (⟨hs, he, hm⟩ | ⟨h1, h2⟩)
        · right; exact ⟨⟨hs, he⟩, hm⟩
        · left
          refine ⟨?_, ?_⟩
          · rcases h1 with h | h <;> exact ⟨h.2.1, h.2.2⟩
          · rcases h2 with h | h <;> exact ⟨h.2.1, h.2.2⟩

theorem eq_self (x : F64) : eq x x = !x.isNaN := by
  cases x <;> simp [eq, isNaN]

end F64

/-! ## Facts about the Eigen operations -/

theorem Vec3.neg_twice (v : Vec3) : v.neg.neg = v := by
  cases v; simp [Vec3.neg, F64.neg_neg]

theorem Vec3.mulScalar_negOne (v : Vec3) : v.mulScalar F64.negOne = v.neg := by
  simp [Vec3.mulScalar, Vec3.neg, F64.mul_negOne]

theorem Vec3.ofRaw_toRaw (v : Vec3) : Vec3.ofRaw v.toRaw = .ok v := rfl

theorem RawMatrix.eq_toRaw (m : RawMatrix) (hr : m.rows = 3) (hc : m.cols = 1) :
    ∃ v : Vec3, m = v.toRaw := by
  obtain ⟨rows, cols, coeffs, hsize⟩ := m
  simp only at hr hc
  subst hr hc
  match coeffs, hsize with
  | [a, b, c], _ => exact ⟨⟨a, b, c⟩, rfl⟩

theorem SO3.ofMatrix_toRaw (v : Vec3) : SO3.ofMatrix v.toRaw = .ok ⟨v⟩ := rfl

theorem SO3.ofMatrixMove_toRaw (v : Vec3) : SO3.ofMatrixMove v.toRaw = .ok ⟨v⟩ := rfl

theorem SO3.fromRotationVector_toRaw (r : SO3) (v : Vec3) :
    r.fromRotationVector v.toRaw = .ok ⟨v⟩ := rfl

theorem SO3.fromRotationVectorMove_toRaw (r : SO3) (v : Vec3) :
    r.fromRotationVectorMove v.toRaw = .ok ⟨v⟩ := rfl

theorem SO3.ofMatrix_error (m : RawMatrix) (h : ¬ (m.rows = 3 ∧ m.cols = 1)) :
    ∃ e, SO3.ofMatrix m = .error e := by
  unfold SO3.ofMatrix
  cases hd : Vec3.ofRaw m with
  | error e => exact ⟨e, rfl⟩
  | ok data =>
    by_cases hr : m.rows = 3
    · have hc : ¬ m.cols = 1 := fun hc => h ⟨hr, hc⟩
      exact ⟨.assertCols, by simp [assert, hr, hc, bind, Except.bind]⟩
    · exact ⟨.assertRows, by simp [assert, hr, bind, Except.bind]⟩

theorem SO3.fromRotationVector_error (r : SO3) (m : RawMatrix)
    (h : ¬ (m.rows = 3 ∧ m.cols = 1)) :
    ∃ e, r.fromRotationVector m = .error e := by
  unfold SO3.fromRotationVector
  by_cases hr : m.rows = 3
  · have hc : ¬ m.cols = 1 := fun hc => h ⟨hr, hc⟩
    exact ⟨.assertCols, by simp [assert, hr, hc, bind, Except.bind]⟩
  · exact ⟨.assertRows, by simp [assert, hr, bind, Except.bind]⟩

theorem Vec3.toRaw_injective (v w : Vec3) (h : v.toRaw = w.toRaw) : v = w := by
  cases v; cases w
  simp only [Vec3.toRaw, RawMatrix.mk.injEq, List.cons.injEq, and_true, true_and] at h
  obtain ⟨hx, hy, hz⟩ := h
  subst hx hy hz
  rfl

/-- A function of a raw matrix that yields the vector on every `3x1` argument
and aborts on every other argument: its two outcomes, told by the argument. -/
theorem SO3.shape_checked (f : RawMatrix → Except Abort SO3)
    (hok : ∀ v : Vec3, f v.toRaw = .ok ⟨v⟩)
    (herr : ∀ m : RawMatrix, ¬ (m.rows = 3 ∧ m.cols = 1) → ∃ e, f m = .error e)
    (m : RawMatrix) :
    ((∃ e, f m = .error e) ↔ ¬ (m.rows = 3 ∧ m.cols = 1)) ∧
      (∀ s : SO3, f m = .ok s ↔ m = s.mRepData.toRaw) := by
  by_cases h : m.rows = 3 ∧ m.cols = 1
  · obtain ⟨v, rfl⟩ := RawMatrix.eq_toRaw m h.1 h.2
    refine ⟨⟨?_, fun hn => absurd h hn⟩, ?_⟩
    · rintro ⟨e, he⟩
      rw [hok v] at he
      cases he
    · intro s
      rw [hok v]
      constructor
      · intro hs
        cases hs
        rfl
      · intro hs
        have := Vec3.toRaw_injective _ _ hs
        subst this
        rfl
  · obtain ⟨e, he⟩ := herr m h
    refine ⟨⟨fun _ => h, fun _ => ⟨e, he⟩⟩, ?_⟩
    intro s
    rw [he]
    constructor
    · intro hs
      cases hs
    · intro hs
      exact absurd (by rw [hs]; exact ⟨rfl, rfl⟩) h

/-! ## The rotation-vector class: identity, inversion, equality -/

namespace SO3

/-- C1: `isIdentity()` returns true exactly when the stored vector equals the
zero vector, that is when each of the three stored scalars denotes the number
zero; storage `(0,0,0)` is identity and storage `(2*pi,0,0)` is not. -/
theorem C1_isIdentity_iff_zero_vector :
    (∀ r : SO3, r.isIdentity = true ↔
      (r.mRepData.x.toRat? = some 0 ∧ r.mRepData.y.toRat? = some 0 ∧
        r.mRepData.z.toRat? = some 0)) ∧
    (SO3.mk ⟨F64.zero, F64.zero, F64.zero⟩).isIdentity = true ∧
    (SO3.mk ⟨F64.twoPi, F64.zero, F64.zero⟩).isIdentity = false := by
  refine ⟨?_, ?_, ?_⟩
  · intro r
    simp only [isIdentity, Vec3.eq, Vec3.Zero, Bool.and_eq_true, F64.eq_zero_iff]
    tauto
  · decide
  · decide

/-- C2: whatever the storage was, after `setIdentity()` the storage is the
zero vector and `isIdentity()` returns true. -/
theorem C2_setIdentity_then_isIdentity (r : SO3) :
    r.setIdentity.mRepData = ⟨F64.zero, F64.zero, F64.zero⟩ ∧
      r.setIdentity.isIdentity = true := by
  constructor
  · rfl
  · show (SO3.mk Vec3.Zero).isIdentity = true
    decide

/-- C3: `invert()` turns storage `(x,y,z)` into `(-x,-y,-z)`, where `-` is the
negation of `double` and so the number each scalar denotes is negated; the
storage `(theta,0,0)` becomes `-theta` followed by two zeros. -/
theorem C3_invert_negates_storage :
    (∀ r : SO3, r.invert.mRepData =
      ⟨F64.neg r.mRepData.x, F64.neg r.mRepData.y, F64.neg r.mRepData.z⟩) ∧
    (∀ r : SO3,
      r.invert.mRepData.x.toRat? = r.mRepData.x.toRat?.map (fun q => -q) ∧
      r.invert.mRepData.y.toRat? = r.mRepData.y.toRat?.map (fun q => -q) ∧
      r.invert.mRepData.z.toRat? = r.mRepData.z.toRat?.map (fun q => -q)) ∧
    (∀ theta : F64,
      (SO3.mk ⟨theta, F64.zero, F64.zero⟩).invert.mRepData.x = F64.neg theta ∧
      (SO3.mk ⟨theta, F64.zero, F64.zero⟩).invert.mRepData.y.toRat? = some 0 ∧
      (SO3.mk ⟨theta, F64.zero, F64.zero⟩).invert.mRepData.z.toRat? = some 0) := by
  have h : ∀ r : SO3, r.invert.mRepData = r.mRepData.neg := fun r =>
    Vec3.mulScalar_negOne r.mRepData
  refine ⟨fun r => h r, ?_, ?_⟩
  · intro r
    rw [h r]
    exact ⟨F64.toRat?_neg _, F64.toRat?_neg _, F64.toRat?_neg _⟩
  · intro theta
    rw [h]
    refine ⟨rfl, ?_, ?_⟩ <;>
      exact (F64.toRat?_eq_zero _).2 (Or.inr rfl)

/-- C4: `getInverse()` returns a new value whose storage is the negated
storage of the receiver, and the receiver still has its storage afterwards. -/
theorem C4_getInverse_returns_negation_receiver_unchanged (r : SO3) :
    ∃ inverse receiver : SO3, r.getInverse = .ok (inverse, receiver) ∧
      inverse.mRepData =
        ⟨F64.neg r.mRepData.x, F64.neg r.mRepData.y, F64.neg r.mRepData.z⟩ ∧
      receiver.mRepData = r.mRepData := by
  refine ⟨⟨r.mRepData.neg⟩, r, ?_, rfl, rfl⟩
  show ofMatrix r.mRepData.neg.toRaw >>= (fun inverse => pure (inverse, r)) = _
  rw [ofMatrix_toRaw]
  rfl

/-- C5, as stated, fails: for the storage `(NaN,0,0)` the twofold inverse has
the storage of the original, yet `operator==` of the two returns false. -/
theorem C5_counterexample_nan_storage :
    getInverseTwice ⟨⟨F64.nan, F64.zero, F64.zero⟩⟩ =
        .ok ⟨⟨F64.nan, F64.zero, F64.zero⟩⟩ ∧
      opEq ⟨⟨F64.nan, F64.zero, F64.zero⟩⟩ ⟨⟨F64.nan, F64.zero, F64.zero⟩⟩ = false := by
  constructor
  · rfl
  · decide

/-- C5, amended: `r.getInverse().getInverse()` always yields a value whose
storage is identical to the storage of `r`, and `operator==` of that value and
`r` (in either order) returns true exactly when no stored scalar of `r` is a
NaN. -/
theorem C5_getInverse_involution (r : SO3) :
    ∃ twice : SO3, r.getInverseTwice = .ok twice ∧ twice.mRepData = r.mRepData ∧
      (twice.opEq r = true ↔
        (r.mRepData.x.isNaN = false ∧ r.mRepData.y.isNaN = false ∧
          r.mRepData.z.isNaN = false)) ∧
      (r.opEq twice = true ↔
        (r.mRepData.x.isNaN = false ∧ r.mRepData.y.isNaN = false ∧
          r.mRepData.z.isNaN = false)) := by
  have h : r.opEq r = true ↔
      (r.mRepData.x.isNaN = false ∧ r.mRepData.y.isNaN = false ∧
        r.mRepData.z.isNaN = false) := by
    simp only [opEq, Vec3.eq, Bool.and_eq_true, F64.eq_self, Bool.not_eq_true']
    tauto
  refine ⟨r, ?_, rfl, h, h⟩
  show Except.ok (SO3.mk r.mRepData.neg.neg) = Except.ok r
  rw [Vec3.neg_twice]

/-- C6, as stated, fails in both directions: a value whose storage holds a NaN
is not `==` to itself although the storage is identical, and storage `(0,0,0)`
is `==` to storage `(-0.0,0,0)` although the first scalars differ. -/
theorem C6_counterexample_nan_and_signed_zero :
    ¬ (opEq ⟨⟨F64.nan, F64.zero, F64.zero⟩⟩ ⟨⟨F64.nan, F64.zero, F64.zero⟩⟩ = true ↔
        (SO3.mk ⟨F64.nan, F64.zero, F64.zero⟩).mRepData =
          (SO3.mk ⟨F64.nan, F64.zero, F64.zero⟩).mRepData) ∧
    ¬ (opEq ⟨⟨F64.zero, F64.zero, F64.zero⟩⟩ ⟨⟨F64.negZero, F64.zero, F64.zero⟩⟩ = true ↔
        (SO3.mk ⟨F64.zero, F64.zero, F64.zero⟩).mRepData =
          (SO3.mk ⟨F64.negZero, F64.zero, F64.zero⟩).mRepData) := by
  constructor <;> decide

/-- C6, amended: `a == b` returns true exactly when, for each of the three
positions, neither stored scalar is a NaN and the two are the same datum or
both denote zero; no tolerance and no geometry enter: storage `(0,0,0)` and
storage `(2*pi,0,0)` compare unequal. -/
theorem C6_opEq_exact :
    (∀ a b : SO3, a.opEq b = true ↔
      (a.mRepData.x.isNaN = false ∧ b.mRepData.x.isNaN = false ∧
        (a.mRepData.x = b.mRepData.x ∨
          (a.mRepData.x.toRat? = some 0 ∧ b.mRepData.x.toRat? = some 0))) ∧
      (a.mRepData.y.isNaN = false ∧ b.mRepData.y.isNaN = false ∧
        (a.mRepData.y = b.mRepData.y ∨
          (a.mRepData.y.toRat? = some 0 ∧ b.mRepData.y.toRat? = some 0))) ∧
      (a.mRepData.z.isNaN = false ∧ b.mRepData.z.isNaN = false ∧
        (a.mRepData.z = b.mRepData.z ∨
          (a.mRepData.z.toRat? = some 0 ∧ b.mRepData.z.toRat? = some 0)))) ∧
    opEq ⟨⟨F64.zero, F64.zero, F64.zero⟩⟩ ⟨⟨F64.twoPi, F64.zero, F64.zero⟩⟩ = false := by
  constructor
  · intro a b
    simp only [opEq, Vec3.eq, Bool.and_eq_true, F64.eq_iff, and_assoc]
  · decide

/-- C7: after `setRotationVector(v)` or `fromRotationVector(v)` (either
overload) with a `3x1` vector `v`, both `getRotationVector()` and
`toRotationVector()` return exactly `v`. -/
theorem C7_direct_accessors_round_trip (r : SO3) (v : Vec3) :
    (r.setRotationVector v).getRotationVector = v ∧
    (r.setRotationVector v).toRotationVector = v ∧
    (∃ s : SO3, r.fromRotationVector v.toRaw = .ok s ∧
      s.getRotationVector = v ∧ s.toRotationVector = v) ∧
    (∃ s : SO3, r.fromRotationVectorMove v.toRaw = .ok s ∧
      s.getRotationVector = v ∧ s.toRotationVector = v) :=
  ⟨rfl, rfl, ⟨⟨v⟩, rfl, rfl, rfl⟩, ⟨⟨v⟩, rfl, rfl, rfl⟩⟩

/-- C8: the two constructors from a raw matrix and the two overloads of
`fromRotationVector` abort exactly when the argument is not `3x1`; they
succeed with the value `s` exactly when the argument is the `3x1` matrix of
the storage of `s`, so nothing is truncated or padded. -/
theorem C8_raw_matrix_shape_is_checked (r : SO3) (m : RawMatrix) :
    (((∃ e, ofMatrix m = .error e) ↔ ¬ (m.rows = 3 ∧ m.cols = 1)) ∧
      (∀ s : SO3, ofMatrix m = .ok s ↔ m = s.mRepData.toRaw)) ∧
    (((∃ e, ofMatrixMove m = .error e) ↔ ¬ (m.rows = 3 ∧ m.cols = 1)) ∧
      (∀ s : SO3, ofMatrixMove m = .ok s ↔ m = s.mRepData.toRaw)) ∧
    (((∃ e, r.fromRotationVector m = .error e) ↔ ¬ (m.rows = 3 ∧ m.cols = 1)) ∧
      (∀ s : SO3, r.fromRotationVector m = .ok s ↔ m = s.mRepData.toRaw)) ∧
    (((∃ e, r.fromRotationVectorMove m = .error e) ↔ ¬ (m.rows = 3 ∧ m.cols = 1)) ∧
      (∀ s : SO3, r.fromRotationVectorMove m = .ok s ↔ m = s.mRepData.toRaw)) :=
  ⟨shape_checked ofMatrix ofMatrix_toRaw ofMatrix_error m,
    shape_checked ofMatrixMove ofMatrixMove_toRaw ofMatrix_error m,
    shape_checked r.fromRotationVector (fromRotationVector_toRaw r)
      (fromRotationVector_error r) m,
    shape_checked r.fromRotationVectorMove (fromRotationVectorMove_toRaw r)
      (fromRotationVector_error r) m⟩

/-- C9, as stated, fails: the constructor from
`Eigen::MatrixBase<Derived>&&` aborts on the `3x3` matrix of zeros. -/
theorem C9_counterexample_three_by_three :
    ofMatrixMove ⟨3, 3, List.replicate 9 F64.zero, rfl⟩ = .error .eigenSize :=
  rfl

/-- C9, amended: the constructor from `Eigen::MatrixBase<Derived>&&` takes a
raw rotation vector: it is accepted exactly when the argument is `3x1`, and
every `3x3` argument aborts. -/
theorem C9_move_constructor_accepts_three_by_one (m : RawMatrix) :
    ((∃ s : SO3, ofMatrixMove m = .ok s) ↔ (m.rows = 3 ∧ m.cols = 1)) ∧
    ((m.rows = 3 ∧ m.cols = 3) → ∃ e, ofMatrixMove m = .error e) := by
  constructor
  · constructor
    · rintro ⟨s, hs⟩
      by_contra h
      obtain ⟨e, he⟩ := ofMatrix_error m h
      rw [show ofMatrixMove m = ofMatrix m from rfl, he] at hs
      cases hs
    · rintro ⟨hr, hc⟩
      obtain ⟨v, rfl⟩ := RawMatrix.eq_toRaw m hr hc
      exact ⟨⟨v⟩, rfl⟩
  · rintro ⟨_, hc⟩
    exact ofMatrix_error m (fun h => by omega)

/-- C9, amended, at a `3x3` matrix and at a `3x1` matrix. -/
theorem C9_move_constructor_witness :
    (∃ e, ofMatrixMove ⟨3, 3, List.replicate 9 F64.zero, rfl⟩ = .error e) ∧
    (∃ s : SO3, ofMatrixMove ⟨3, 1, [F64.twoPi, F64.zero, F64.zero], rfl⟩ = .ok s) :=
  ⟨(C9_move_constructor_accepts_three_by_one
      ⟨3, 3, List.replicate 9 F64.zero, rfl⟩).2 ⟨rfl, rfl⟩,
    (C9_move_constructor_accepts_three_by_one
      ⟨3, 1, [F64.twoPi, F64.zero, F64.zero], rfl⟩).1.2 ⟨rfl, rfl⟩⟩

end SO3

end math
end dart

/-! ## The display toggles of `SupportPolygonVisual` -/

namespace osgDart

open dart.math dart.dynamics

namespace SupportPolygonVisual

theorem attached_init (sk : Option Skeleton) (t : Nat) (el : F64) (c m : Bool) : (init (fresh sk t el c m)).Attached :=
  ⟨rfl, rfl⟩

theorem attached_displayCentroid (self : SupportPolygonVisual) (d : Bool)
    (h : self.Attached) : (self.displayCentroid d).Attached := by
  obtain ⟨children, c, m⟩ := self
  obtain ⟨h1, h2⟩ := h
  simp only at h1 h2
  cases c <;> cases d <;>
    simp_all [displayCentroid, Attached, addChild, removeChild, List.count_append,
      List.count_erase_self, List.count_erase_of_ne]

theorem attached_displayCenterOfMass (self : SupportPolygonVisual) (d : Bool)
    (h : self.Attached) : (self.displayCenterOfMass d).Attached := by
  obtain ⟨children, c, m⟩ := self
  obtain ⟨h1, h2⟩ := h
  simp only at h1 h2
  cases m <;> cases d <;>
    simp_all [displayCenterOfMass, Attached, addChild, removeChild, List.count_append,
      List.count_erase_self, List.count_erase_of_ne]

theorem displayCentroid_flags (self : SupportPolygonVisual) (d : Bool) :
    (self.displayCentroid d).mDisplayCentroid = d ∧
      (self.displayCentroid d).mDisplayCOM = self.mDisplayCOM := by
  obtain ⟨children, c, m⟩ := self
  cases c <;> cases d <;> simp [displayCentroid, addChild, removeChild]

theorem displayCenterOfMass_flags (self : SupportPolygonVisual) (d : Bool) :
    (self.displayCenterOfMass d).mDisplayCOM = d ∧
      (self.displayCenterOfMass d).mDisplayCentroid = self.mDisplayCentroid := by
  obtain ⟨children, c, m⟩ := self
  cases m <;> cases d <;> simp [displayCenterOfMass, addChild, removeChild]

theorem displayCentroid_same (self : SupportPolygonVisual) :
    self.displayCentroid self.mDisplayCentroid = self := by
  simp [displayCentroid]

theorem displayCenterOfMass_same (self : SupportPolygonVisual) :
    self.displayCenterOfMass self.mDisplayCOM = self := by
  simp [displayCenterOfMass]

end SupportPolygonVisual

namespace Call

theorem run_attached (calls : List Call) (self : SupportPolygonVisual)
    (h : self.Attached) : (run self calls).Attached := by
  induction calls generalizing self with
  | nil => exact h
  | cons call rest ih =>
    apply ih
    cases call with
    | displayCentroid d => exact SupportPolygonVisual.attached_displayCentroid self d h
    | displayCenterOfMass d => exact SupportPolygonVisual.attached_displayCenterOfMass self d h

theorem run_flags (calls : List Call) (self : SupportPolygonVisual) :
    (run self calls).mDisplayCentroid = latestCentroid self.mDisplayCentroid calls ∧
      (run self calls).mDisplayCOM = latestCenterOfMass self.mDisplayCOM calls := by
  induction calls generalizing self with
  | nil => exact ⟨rfl, rfl⟩
  | cons call rest ih =>
    cases call with
    | displayCentroid d =>
      have hf := SupportPolygonVisual.displayCentroid_flags self d
      have := ih (self.displayCentroid d)
      rw [hf.1, hf.2] at this
      exact this
    | displayCenterOfMass d =>
      have hf := SupportPolygonVisual.displayCenterOfMass_flags self d
      have := ih (self.displayCenterOfMass d)
      rw [hf.1, hf.2] at this
      exact this

end Call

namespace SupportPolygonVisual

/-- C10: after `initialize()` and any sequence of `displayCentroid` and
`displayCenterOfMass` calls, the centroid node is a child exactly once when
`isCentroidDisplayed()` is true and not a child when it is false, likewise the
centre-of-mass node with `isCenterOfMassDisplayed()`; each getter returns the
argument of the latest call of its toggle (true when there was none); and a
call repeated with the same argument, or made with the value the getter
returns, changes nothing. -/
theorem C10_display_toggles_track_children (sk : Option Skeleton) (t : Nat) (el : F64)
    (c m : Bool) (calls : List Call) :
    ((Call.run (init (fresh sk t el c m)) calls).children.count .mCentroidNode =
      (if (Call.run (init (fresh sk t el c m)) calls).isCentroidDisplayed then 1 else 0)) ∧
    ((Call.run (init (fresh sk t el c m)) calls).children.count .mComNode =
      (if (Call.run (init (fresh sk t el c m)) calls).isCenterOfMassDisplayed then 1 else 0)) ∧
    (Call.run (init (fresh sk t el c m)) calls).isCentroidDisplayed =
      Call.latestCentroid true calls ∧
    (Call.run (init (fresh sk t el c m)) calls).isCenterOfMassDisplayed =
      Call.latestCenterOfMass true calls ∧
    (∀ d : Bool,
      ((Call.run (init (fresh sk t el c m)) calls).displayCentroid d).displayCentroid d =
        (Call.run (init (fresh sk t el c m)) calls).displayCentroid d) ∧
    (∀ d : Bool,
      ((Call.run (init (fresh sk t el c m)) calls).displayCenterOfMass d).displayCenterOfMass d =
        (Call.run (init (fresh sk t el c m)) calls).displayCenterOfMass d) ∧
    (Call.run (init (fresh sk t el c m)) calls).displayCentroid
        (Call.run (init (fresh sk t el c m)) calls).isCentroidDisplayed =
      Call.run (init (fresh sk t el c m)) calls ∧
    (Call.run (init (fresh sk t el c m)) calls).displayCenterOfMass
        (Call.run (init (fresh sk t el c m)) calls).isCenterOfMassDisplayed =
      Call.run (init (fresh sk t el c m)) calls := by
  have hatt := Call.run_attached calls _ (attached_init sk t el c m)
  have hfl := Call.run_flags calls (init (fresh sk t el c m))
  refine ⟨hatt.1, hatt.2, hfl.1, hfl.2, ?_, ?_, displayCentroid_same _,
    displayCenterOfMass_same _⟩
  · intro d
    have h := (displayCentroid_flags (Call.run (init (fresh sk t el c m)) calls) d).1
    conv_lhs => arg 2; rw [← h]
    exact displayCentroid_same _
  · intro d
    have h := (displayCenterOfMass_flags (Call.run (init (fresh sk t el c m)) calls) d).1
    conv_lhs => arg 2; rw [← h]
    exact displayCenterOfMass_same _

end SupportPolygonVisual

end osgDart

namespace osgDart

open dart.math dart.dynamics

theorem length_resize {α : Type} (xs : List α) (n : Nat) (fill : α) :
    (resize xs n fill).length = n := by
  simp only [resize, List.length_append, List.length_take, List.length_replicate]
  omega

namespace SupportPolygonVisual

theorem refreshLoop_length (vertexOf : Vec2 → OsgVec3) (rest : List Vec2) :
    ∀ (i : Nat) (vertices : List OsgVec3) (faces : List Nat),
      (refreshLoop vertexOf i rest vertices faces).1.length = vertices.length ∧
        (refreshLoop vertexOf i rest vertices faces).2.length = faces.length := by
  induction rest with
  | nil => intro i vertices faces; exact ⟨rfl, rfl⟩
  | cons p rest ih =>
    intro i vertices faces
    have h := ih (i + 1) (vertices.set i (vertexOf p)) (faces.set i (i % 65536))
    simpa [refreshLoop] using h

theorem refreshLoop_faces (vertexOf : Vec2 → OsgVec3) (rest : List Vec2) :
    ∀ (i : Nat) (vertices : List OsgVec3) (faces : List Nat) (j : Nat),
      i + rest.length ≤ faces.length →
      (refreshLoop vertexOf i rest vertices faces).2[j]? =
        if i ≤ j ∧ j < i + rest.length then some (j % 65536) else faces[j]? := by
  induction rest with
  | nil =>
    intro i vertices faces j _
    have : ¬ (i ≤ j ∧ j < i + ([] : List Vec2).length) := by simp
    rw [if_neg this]
    rfl
  | cons p rest ih =>
    intro i vertices faces j hlen
    simp only [List.length_cons] at hlen
    have h := ih (i + 1) (vertices.set i (vertexOf p)) (faces.set i (i % 65536)) j
      (by rw [List.length_set]; omega)
    simp only [refreshLoop, h, List.length_cons]
    by_cases hij : i = j
    · subst hij
      have h1 : ¬ (i + 1 ≤ i ∧ i < i + 1 + rest.length) := by omega
      have h2 : i ≤ i ∧ i < i + (rest.length + 1) := by omega
      rw [if_neg h1, if_pos h2, List.getElem?_set_self (by omega)]
    · rw [List.getElem?_set_ne hij]
      by_cases hc : i + 1 ≤ j ∧ j < i + 1 + rest.length
      · rw [if_pos hc, if_pos (by omega)]
      · rw [if_neg hc, if_neg (by omega)]

theorem refreshLoop_vertices (vertexOf : Vec2 → OsgVec3) (rest : List Vec2) :
    ∀ (i : Nat) (vertices : List OsgVec3) (faces : List Nat) (j : Nat),
      i + rest.length ≤ vertices.length →
      (refreshLoop vertexOf i rest vertices faces).1[j]? =
        if i ≤ j ∧ j < i + rest.length then (rest[j - i]?).map vertexOf else vertices[j]? := by
  induction rest with
  | nil =>
    intro i vertices faces j _
    have : ¬ (i ≤ j ∧ j < i + ([] : List Vec2).length) := by simp
    rw [if_neg this]
    rfl
  | cons p rest ih =>
    intro i vertices faces j hlen
    simp only [List.length_cons] at hlen
    have h := ih (i + 1) (vertices.set i (vertexOf p)) (faces.set i (i % 65536)) j
      (by rw [List.length_set]; omega)
    simp only [refreshLoop, h, List.length_cons]
    by_cases hij : i = j
    · subst hij
      have h1 : ¬ (i + 1 ≤ i ∧ i < i + 1 + rest.length) := by omega
      have h2 : i ≤ i ∧ i < i + (rest.length + 1) := by omega
      rw [if_neg h1, if_pos h2, List.getElem?_set_self (by omega)]
      simp
    · rw [List.getElem?_set_ne hij]
      by_cases hc : i + 1 ≤ j ∧ j < i + 1 + rest.length
      · rw [if_pos hc, if_pos (by omega)]
        have : j - i = (j - (i + 1)) + 1 := by omega
        rw [this, List.getElem?_cons_succ]
      · rw [if_neg hc, if_neg (by omega)]

theorem refreshLoop_eq (vertexOf : Vec2 → OsgVec3) (poly : List Vec2)
    (vertices : List OsgVec3) (faces : List Nat)
    (hv : vertices.length = poly.length) (hf : faces.length = poly.length) :
    refreshLoop vertexOf 0 poly vertices faces =
      (poly.map vertexOf, (List.range poly.length).map (fun i => i % 65536)) := by
  have hl := refreshLoop_length vertexOf poly 0 vertices faces
  apply Prod.ext
  · apply List.ext_getElem?
    intro j
    rw [refreshLoop_vertices vertexOf poly 0 vertices faces j (by omega)]
    by_cases hj : j < poly.length
    · rw [if_pos (by omega)]
      simp
    · rw [if_neg (by omega)]
      rw [List.getElem?_eq_none (by omega), List.getElem?_eq_none (by simp; omega)]
  · apply List.ext_getElem?
    intro j
    rw [refreshLoop_faces vertexOf poly 0 vertices faces j (by omega)]
    by_cases hj : j < poly.length
    · rw [if_pos (by omega)]
      simp [List.getElem?_range hj]
    · rw [if_neg (by omega)]
      rw [List.getElem?_eq_none (by omega), List.getElem?_eq_none (by simp; omega)]

theorem refresh_live (place : Vec3 × Vec3 → F64 → Vec2 → OsgVec3)
    (self : SupportPolygonVisual) (skel : Skeleton) (hs : self.mSkeleton = some skel) :
    refresh place self =
      if self.assertHolds skel then
        .ok { self with
          mVertices := (self.polygonOf skel).map (place (self.axesOf skel) self.mElevation),
          mFaces := (List.range (self.polygonOf skel).length).map (fun i => i % 65536) }
      else .error .assertMass := by
  obtain ⟨children, c, m, sk, t, el, vs, fs⟩ := self
  simp only at hs
  subst hs
  have hloop := fun poly : List Vec2 => fun axes : Vec3 × Vec3 =>
    refreshLoop_eq (place axes el) poly (resize vs poly.length OsgVec3.zero)
      (resize fs poly.length 0) (length_resize _ _ _) (length_resize _ _ _)
  simp only [refresh, polygonOf, axesOf, hloop, assertHolds]
  cases m
  · simp
  · by_cases ht : INVALID_INDEX = t
    · simp [ht]
    · cases hm : F64.eq (treeMass (skel.getTreeBodyNodes t)) F64.zero <;> simp [ht]


theorem mTreeIndex_onParabola (n : Nat) : (onParabola n).mTreeIndex = INVALID_INDEX :=
  rfl

theorem polygonOf_onParabola (n : Nat) :
    (onParabola n).polygonOf (flatSkeleton (parabola n)) = parabola n := by
  unfold polygonOf
  rw [mTreeIndex_onParabola, if_pos rfl]
  rfl

theorem length_parabola (n : Nat) : (parabola n).length = n := by
  simp only [parabola, List.length_map, List.length_range]

theorem mSkeleton_onParabola (n : Nat) :
    (onParabola n).mSkeleton = some (flatSkeleton (parabola n)) :=
  rfl

theorem assertHolds_onParabola (n : Nat) :
    (onParabola n).assertHolds (flatSkeleton (parabola n)) = true := by
  unfold assertHolds
  rw [mTreeIndex_onParabola]
  simp

/-- C11, as stated, fails: for the support polygon of 65537 corners,
`refresh()` returns with 65537 vertices and 65537 indices, and the index
stored at position 65536 is 0, not 65536. -/
theorem C11_counterexample_index_wraps :
    ∃ s, refresh (fun _ _ _ => OsgVec3.zero) (onParabola 65537) = .ok s ∧
      s.mVertices.length = 65537 ∧ s.mFaces.length = 65537 ∧
      s.mFaces[65536]? = some 0 := by
  rw [refresh_live _ _ _ (mSkeleton_onParabola 65537), if_pos (assertHolds_onParabola 65537)]
  refine ⟨_, rfl, ?_, ?_, ?_⟩
  · simp only [List.length_map, polygonOf_onParabola, length_parabola]
  · simp only [List.length_map, List.length_range, polygonOf_onParabola, length_parabola]
  · simp only [polygonOf_onParabola, length_parabola, List.getElem?_map]
    rw [List.getElem?_range (by norm_num)]
    rfl

/-- C11, amended: a `refresh()` on a live skeleton whose support polygon has
`n` points returns when its assertion holds (and aborts otherwise), and then
the vertex array and the 16-bit index array both have exactly `n` entries
and, for every `i < n` below 65536, the index stored at position `i` is `i`;
so for `n` up to 65536 the indices are `0, 1, ..., n-1`, each vertex once and
in order.  When the
skeleton has expired, `refresh()` returns and changes nothing. -/
theorem C11_refresh_fills_arrays (place : Vec3 × Vec3 → F64 → Vec2 → OsgVec3)
    (self : SupportPolygonVisual) :
    (∀ skel : Skeleton, self.mSkeleton = some skel → self.assertHolds skel = true →
      ∃ s, refresh place self = .ok s ∧
        s.mVertices.length = (self.polygonOf skel).length ∧
        s.mFaces.length = (self.polygonOf skel).length ∧
        (∀ i : Nat, i < (self.polygonOf skel).length → i < 65536 → s.mFaces[i]? = some i) ∧
        ((self.polygonOf skel).length ≤ 65536 →
          s.mFaces = List.range (self.polygonOf skel).length)) ∧
    (∀ skel : Skeleton, self.mSkeleton = some skel → self.assertHolds skel = false →
      refresh place self = .error .assertMass) ∧
    (self.mSkeleton = none → refresh place self = .ok self) := by
  refine ⟨?_, ?_, ?_⟩
  · intro skel hs ha
    rw [refresh_live place self skel hs, if_pos ha]
    refine ⟨_, rfl, ?_, ?_, ?_, ?_⟩
    · simp only [List.length_map]
    · simp only [List.length_map, List.length_range]
    · intro i hi hlt
      simp only [List.getElem?_map, List.getElem?_range hi, Option.map_some',
        Nat.mod_eq_of_lt hlt]
    · intro hn
      apply List.ext_getElem?
      intro j
      by_cases hj : j < (self.polygonOf skel).length
      · simp only [List.getElem?_map, List.getElem?_range hj, Option.map_some',
          Nat.mod_eq_of_lt (show j < 65536 by omega)]
      · rw [List.getElem?_eq_none (by simp; omega), List.getElem?_eq_none (by simp; omega)]
  · intro skel hs ha
    rw [refresh_live place self skel hs, ha]
    rfl
  · intro hs
    unfold refresh
    rw [hs]

/-- C11, amended, at the support polygon of three corners: `refresh()`
returns, and the indices are `0, 1, 2`. -/
theorem C11_refresh_witness :
    ∃ s, refresh (fun _ _ _ => OsgVec3.zero) (onParabola 3) = .ok s ∧
      s.mVertices.length = 3 ∧ s.mFaces = [0, 1, 2] := by
  obtain ⟨s, hs, hv, _, _, hf⟩ :=
    (C11_refresh_fills_arrays (fun _ _ _ => OsgVec3.zero) (onParabola 3)).1
      (flatSkeleton (parabola 3)) (mSkeleton_onParabola 3) (assertHolds_onParabola 3)
  rw [polygonOf_onParabola, length_parabola] at hv hf
  exact ⟨s, hs, hv, hf (by norm_num)⟩

end SupportPolygonVisual
end osgDart
